import Mathlib

/-!
Verification development for the YouTube download script
(src/step1_get_youtube.py).  Strings are modelled as lists of
characters; the Python string operations used by the script
(substring containment with `in`, and `s.split(sep)[i]` for i = 0, 1)
are given faithful executable counterparts.  The external extraction
and download engine (yt_dlp) is a black box in the source and is
modelled by explicit parameters: the list of playlist entries the
engine reports, and the per-URL outcome of a download attempt.
-/

namespace YT

/-- Strings of the script, modelled as lists of characters. -/
abbrev Str := List Char

/-- Python substring containment, `sep in s`.  The empty separator is
contained in every string, as in Python. -/
def hasSub (sep : Str) : Str → Bool
  | [] => sep.isEmpty
  | c :: t => sep.isPrefixOf (c :: t) || hasSub sep t

/-- Text before the first occurrence of a separator, Python
`s.split(sep)[0]`: the whole string when the separator is absent. -/
def beforeFirst (sep : Str) : Str → Str
  | [] => []
  | c :: t => if sep.isPrefixOf (c :: t) then [] else c :: beforeFirst sep t

/-- Text after the end of the first occurrence of a separator; only
meaningful when the separator occurs.  Python `s.split(sep)[1]` is
`beforeFirst sep (afterFirst sep s)`: the segment between the end of
the first occurrence and the start of the next. -/
def afterFirst (sep : Str) : Str → Str
  | [] => []
  | c :: t => if sep.isPrefixOf (c :: t) then (c :: t).drop sep.length else afterFirst sep t

/-- Python `s.split(sep1)[1].split(sep2)[0]`: the segment between the
first occurrence of sep1 and the next occurrence of sep1, truncated at
the first occurrence of sep2 inside that segment. -/
def splitGet1Get0 (sep1 sep2 s : Str) : Str :=
  beforeFirst sep2 (beforeFirst sep1 (afterFirst sep1 s))

/-- Base of a canonical single-video URL. -/
def watchBase : Str := "https://www.youtube.com/watch?v=".data

/-- Canonical single-video URL built from a video id, the f-string
`f"https://www.youtube.com/watch?v={video_id}"` of the source. -/
def ytWatch (id : Str) : Str := watchBase ++ id

/-- Source lines 91-104.  `get_video_url`: when the URL contains both
the substrings "&list=" and "v=", rebuild a clean watch URL from
`url.split("v=")[1].split("&")[0]`; otherwise return it unchanged. -/
def get_video_url (url : Str) : Str :=
  if hasSub "&list=".data url && hasSub "v=".data url then
    ytWatch (splitGet1Get0 "v=".data "&".data url)
  else url

/-- Source line 164-174.  `is_playlist`: the URL contains "list=". -/
def is_playlist (url : Str) : Bool := hasSub "list=".data url

/-- One playlist entry as reported by the extraction engine: `none`
models a falsy entry or an entry whose id field is missing (both are
skipped by the source loop with no other effect); `some id` models an
entry with video id `id`. -/
abbrev Entry := Option Str

/-- Result of the engine call `ydl.extract_info(playlist_url)` inside
`extract_urls_from_playlist`: `none` models a raised exception or an
info dict without an entries key (both leave the accumulated list
unchanged in the source); `some es` models a reported entry list. -/
abbrev Entries := Option (List Entry)

/-- Loop body of source lines 149-157: a truthy entry with an id has
its watch URL appended when the accumulated list is still below the
cap and the URL is not already present. -/
def extractStep (max_downloads : Nat) (acc : List Str) (e : Entry) : List Str :=
  match e with
  | none => acc
  | some vid =>
    if acc.length < max_downloads then
      if ytWatch vid ∈ acc then acc else acc ++ [ytWatch vid]
    else acc

/-- Source lines 106-162.  `extract_urls_from_playlist`: seed the list
with the clean watch URL when the input is a video inside a playlist
(`url.split("watch?v=")[1].split("&")[0]`), return it alone when
`max_downloads == 1`, otherwise fold the engine-reported entries
through `extractStep` and truncate at `max_downloads`. -/
def extract_urls_from_playlist (url : Str) (max_downloads : Nat) (entries : Entries) :
    List Str :=
  let seeded := hasSub "watch?v=".data url && hasSub "list=".data url
  let url_list : List Str :=
    if seeded then [ytWatch (splitGet1Get0 "watch?v=".data "&".data url)] else []
  if seeded && (max_downloads == 1) then url_list
  else
    let url_list2 :=
      match entries with
      | none => url_list
      | some es => es.foldl (extractStep max_downloads) url_list
    url_list2.take max_downloads

/-- Outcome of the black-box download engine for one URL, covering the
three paths of source lines 234-277: an exception raised anywhere in
the try block, `extract_info` returning None, or a completed attempt
with the video title and whether a matching output file exists. -/
inductive EngineOutcome
  | exc (msg : Str)
  | noInfo
  | ok (title : Str) (fileFound : Bool)
deriving DecidableEq

/-- Source lines 176-277.  `download_video` reduced to its observable
result `(success, title)`: an exception is caught and reported as
`(False, "Unknown (Error: <msg>)")`, a None info dict gives
`(False, "Unknown (Info extraction failed)")`, and a completed attempt
returns the title with success iff the output file was found. -/
def download_video : EngineOutcome → Bool × Str
  | .exc msg => (false, "Unknown (Error: ".data ++ msg ++ ")".data)
  | .noInfo => (false, "Unknown (Info extraction failed)".data)
  | .ok title found => (found, title)

/-- Source lines 327-352: the URL-resolution phase of `get_youtube`.
A playlist URL goes through `extract_urls_from_playlist`, falling back
to the embedded single video when that yields nothing; a non-playlist
URL is cleaned by `get_video_url`; an empty result gets the original
URL appended as a last resort. -/
def resolve_base (url : Str) (max_downloads : Nat) (entries : Entries) : List Str :=
  if hasSub "list=".data url then
    let ls := extract_urls_from_playlist url max_downloads entries
    if ls.isEmpty && hasSub "watch?v=".data url then
      ls ++ [ytWatch (splitGet1Get0 "watch?v=".data "&".data url)]
    else ls
  else [get_video_url url]

/-- Source lines 349-352: the last-resort fallback appends the
original URL to an empty resolved list. -/
def resolve_urls (url : Str) (max_downloads : Nat) (entries : Entries) : List Str :=
  let base := resolve_base url max_downloads entries
  if base.isEmpty then base ++ [url] else base

/-- Report line for a successful download, source line 389. -/
def successLine (title u : Str) : Str :=
  "SUCCESS: ".data ++ title ++ " - ".data ++ u ++ "\n".data

/-- Report line for a failed download, source line 392. -/
def failedLine (u : Str) : Str :=
  "FAILED: ".data ++ u ++ " - Unable to download\n".data

/-- Decimal rendering of a counter, Python str() on a non-negative int. -/
def natStr (n : Nat) : Str := (Nat.repr n).data

/-- The "="*50 separator of the report. -/
def sepBar : Str := List.replicate 50 '='

/-- Report header, source lines 365-371.  `now` stands for the
formatted `datetime.now()` timestamp. -/
def headerLines (type : Str) (max_downloads : Nat) (now : Str) : List Str :=
  [ "YouTube Download Report\n".data,
    "Generated: ".data ++ now ++ "\n".data,
    "Download Type: ".data ++ type ++ "\n".data,
    "Max Downloads: ".data ++ natStr max_downloads ++ "\n".data,
    sepBar ++ "\n\n".data ]

/-- Report summary, source lines 396-403.  The success-rate percentage
is produced by floating-point formatting in the source and is
abstracted as the function `ratef`. -/
def summaryLines (n s f : Nat) (ratef : Nat → Nat → Str) : List Str :=
  [ "\n".data ++ sepBar ++ "\n".data,
    "Download Summary:\n".data,
    "Total Processed: ".data ++ natStr n ++ "\n".data,
    "Total Success: ".data ++ natStr s ++ "\n".data,
    "Total Failures: ".data ++ natStr f ++ "\n".data ]
  ++ (if 0 < n then ["Success Rate: ".data ++ ratef s n ++ "%\n".data] else [])

/-- Loop body of source lines 374-393: one download attempt updates
the success / failure counters and appends one report line. -/
def dlStep (eng : Str → EngineOutcome) (acc : Nat × Nat × List Str) (u : Str) :
    Nat × Nat × List Str :=
  let r := download_video (eng u)
  if r.1 then (acc.1 + 1, acc.2.1, acc.2.2 ++ [successLine r.2 u])
  else (acc.1, acc.2.1 + 1, acc.2.2 ++ [failedLine u])

/-- The single report line produced for one URL by the download loop. -/
def dlLine (eng : Str → EngineOutcome) (u : Str) : Str :=
  if (download_video (eng u)).1 then successLine (download_video (eng u)).2 u
  else failedLine u

/-- Observable result of `get_youtube`: the returned counter pair, the
written report (`none` when no report file is created, matching a None
report path), and the list of URLs passed to the download capability,
in invocation order. -/
structure GYResult where
  success_count : Nat
  fail_count : Nat
  report : Option (List Str)
  downloads_invoked : List Str
deriving DecidableEq

/-- Source lines 279-410.  `get_youtube` with the configuration value
MAX_DOWNLOADS and the black-box engine behaviour made explicit:
`entries` is what playlist extraction reports, `eng` the per-URL
download outcome, `now` the formatted timestamp and `ratef` the
floating-point success-rate formatter.  An invalid type returns
(0, 0, None) at once; otherwise the resolved URLs are processed in
order, accumulating counters and report lines, and the report is
assembled after the loop. -/
def get_youtube (url type : Str) (max_downloads : Nat) (entries : Entries)
    (eng : Str → EngineOutcome) (now : Str) (ratef : Nat → Nat → Str) : GYResult :=
  if type = "video".data ∨ type = "audio".data then
    let url_ls := resolve_urls url max_downloads entries
    if url_ls = [] then ⟨0, 0, none, []⟩
    else
      let res := url_ls.foldl (dlStep eng) (0, 0, [])
      ⟨res.1, res.2.1,
        some (headerLines type max_downloads now ++ res.2.2 ++
          summaryLines url_ls.length res.1 res.2.1 ratef),
        url_ls⟩
  else ⟨0, 0, none, []⟩

/-! Helper lemmas about the Python string operations. -/

/-- The splitting character never occurs in the segment before its
first occurrence. -/
lemma not_mem_beforeFirst_single (a : Char) (s : Str) : a ∉ beforeFirst [a] s := by
  induction s with
  | nil => simp [beforeFirst]
  | cons c t ih =>
    simp only [beforeFirst]
    split
    · simp
    · rename_i hp
      simp only [List.mem_cons, not_or]
      refine ⟨fun hac => hp ?_, ih⟩
      subst hac
      show ((a == a) && List.isPrefixOf [] t) = true
      simp

/-- A string containing a separator contains its first character. -/
lemma mem_of_hasSub_cons (a : Char) (sep s : Str) (h : hasSub (a :: sep) s = true) :
    a ∈ s := by
  induction s with
  | nil => simp [hasSub] at h
  | cons c t ih =>
    simp only [hasSub, Bool.or_eq_true] at h
    rcases h with h | h
    · have hx : ((a == c) && List.isPrefixOf sep t) = true := h
      have hac : a = c := by
        simp only [Bool.and_eq_true, beq_iff_eq] at hx
        exact hx.1
      simp [hac]
    · simp [ih h]

/-- Contrapositive form: a string avoiding the first character of a
separator does not contain the separator. -/
lemma hasSub_eq_false_of_not_mem (a : Char) (sep s : Str) (h : a ∉ s) :
    hasSub (a :: sep) s = false := by
  cases hc : hasSub (a :: sep) s
  · rfl
  · exact absurd (mem_of_hasSub_cons a sep s hc) h

/-- The clean watch URL rebuilt by `get_video_url` contains no
ampersand: neither the fixed base nor the extracted id has one. -/
lemma amp_not_mem_clean (u : Str) :
    '&' ∉ ytWatch (splitGet1Get0 "v=".data "&".data u) := by
  simp only [ytWatch, watchBase, splitGet1Get0, List.mem_append, not_or]
  constructor
  · decide
  · exact not_mem_beforeFirst_single '&' _

/-- The clean watch URL rebuilt by `get_video_url` contains no
"&list=" substring. -/
lemma no_amp_list_clean (u : Str) :
    hasSub "&list=".data (ytWatch (splitGet1Get0 "v=".data "&".data u)) = false := by
  have h : "&list=".data = '&' :: "list=".data := rfl
  rw [h]
  exact hasSub_eq_false_of_not_mem _ _ _ (amp_not_mem_clean u)

/-! Helper lemmas about the playlist-extraction loop. -/

/-- One step of the extraction loop preserves duplicate-freedom,
because an URL is appended only after the membership test. -/
lemma extractStep_nodup (m : Nat) (acc : List Str) (e : Entry) (h : acc.Nodup) :
    (extractStep m acc e).Nodup := by
  cases e with
  | none => exact h
  | some vid =>
    simp only [extractStep]
    split
    · split
      · exact h
      · rename_i hmem
        simp [List.nodup_append, h, hmem]
    · exact h

/-- The whole extraction loop preserves duplicate-freedom. -/
lemma foldl_extractStep_nodup (m : Nat) (es : List Entry) :
    ∀ acc : List Str, acc.Nodup → (es.foldl (extractStep m) acc).Nodup := by
  induction es with
  | nil => intro acc h; exact h
  | cons e t ih => intro acc h; exact ih _ (extractStep_nodup m acc e h)

/-- One step of the extraction loop only appends canonical watch
URLs. -/
lemma extractStep_starts (m : Nat) (acc : List Str) (e : Entry)
    (h : ∀ x ∈ acc, watchBase <+: x) :
    ∀ x ∈ extractStep m acc e, watchBase <+: x := by
  cases e with
  | none => exact h
  | some vid =>
    simp only [extractStep]
    split
    · split
      · exact h
      · intro x hx
        rcases List.mem_append.1 hx with hx | hx
        · exact h x hx
        · rcases List.mem_singleton.1 hx with rfl
          exact List.prefix_append watchBase vid
    · exact h

/-- The whole extraction loop only appends canonical watch URLs. -/
lemma foldl_extractStep_starts (m : Nat) (es : List Entry) :
    ∀ acc : List Str, (∀ x ∈ acc, watchBase <+: x) →
      ∀ x ∈ es.foldl (extractStep m) acc, watchBase <+: x := by
  induction es with
  | nil => intro acc h; exact h
  | cons e t ih => intro acc h; exact ih _ (extractStep_starts m acc e h)

/-! Helper lemmas about the download loop and the report. -/

lemma dlStep_eq (eng : Str → EngineOutcome) (acc : Nat × Nat × List Str) (u : Str) :
    dlStep eng acc u =
      (if (download_video (eng u)).1 then acc.1 + 1 else acc.1,
       if (download_video (eng u)).1 then acc.2.1 else acc.2.1 + 1,
       acc.2.2 ++ [dlLine eng u]) := by
  simp only [dlStep, dlLine]
  by_cases h : (download_video (eng u)).1 <;> simp [h]

lemma foldl_dlStep_spec (eng : Str → EngineOutcome) (ls : List Str) :
    ∀ s f L,
      (ls.foldl (dlStep eng) (s, f, L)).1 + (ls.foldl (dlStep eng) (s, f, L)).2.1
        = s + f + ls.length ∧
      (ls.foldl (dlStep eng) (s, f, L)).2.2 = L ++ ls.map (dlLine eng) := by
  induction ls with
  | nil => intro s f L; simp
  | cons u t ih =>
    intro s f L
    simp only [List.foldl_cons, List.map_cons, dlStep_eq]
    rcases ih (if (download_video (eng u)).1 then s + 1 else s)
      (if (download_video (eng u)).1 then f else f + 1) (L ++ [dlLine eng u]) with ⟨h1, h2⟩
    constructor
    · rw [h1]
      by_cases h : (download_video (eng u)).1 <;> simp [h] <;> omega
    · rw [h2]
      simp [List.append_assoc]

def repLinePred (l : Str) : Bool :=
  "SUCCESS: ".data.isPrefixOf l || "FAILED: ".data.isPrefixOf l

lemma isPrefixOf_self_append (p x : Str) : p.isPrefixOf (p ++ x) = true := by
  induction p with
  | nil => simp [List.isPrefixOf]
  | cons a t ih =>
    show ((a == a) && List.isPrefixOf t (t ++ x)) = true
    simp [ih]

lemma isPrefixOf_append_false (p q X : Str) (hlen : p.length ≤ q.length)
    (h : p.isPrefixOf q = false) : p.isPrefixOf (q ++ X) = false := by
  cases hc : p.isPrefixOf (q ++ X)
  · rfl
  · exfalso
    have hp : p <+: q ++ X := List.isPrefixOf_iff_prefix.1 hc
    have h1 : p = (q ++ X).take p.length := List.prefix_iff_eq_take.1 hp
    rw [List.take_append_of_le_length hlen] at h1
    have hp2 : p <+: q := h1 ▸ List.take_prefix p.length q
    rw [ List.isPrefixOf_iff_prefix.2 hp2] at h
    exact Bool.noConfusion h

lemma repLinePred_false (q X : Str)
    (h1 : "SUCCESS: ".data.length ≤ q.length) (h2 : "FAILED: ".data.length ≤ q.length)
    (h3 : "SUCCESS: ".data.isPrefixOf q = false) (h4 : "FAILED: ".data.isPrefixOf q = false) :
    repLinePred (q ++ X) = false := by
  simp [repLinePred, isPrefixOf_append_false _ _ _ h1 h3, isPrefixOf_append_false _ _ _ h2 h4]

lemma repLinePred_cons_false (c : Char) (X : Str)
    (h1 : ('S' == c) = false) (h2 : ('F' == c) = false) :
    repLinePred (c :: X) = false := by
  have a1 : "SUCCESS: ".data.isPrefixOf (c :: X) = false := by
    show (('S' == c) && List.isPrefixOf "UCCESS: ".data X) = false
    rw [h1]; rfl
  have a2 : "FAILED: ".data.isPrefixOf (c :: X) = false := by
    show (('F' == c) && List.isPrefixOf "AILED: ".data X) = false
    rw [h2]; rfl
  simp [repLinePred, a1, a2]

lemma repLinePred_dlLine (eng : Str → EngineOutcome) (u : Str) :
    repLinePred (dlLine eng u) = true := by
  simp only [dlLine]
  split
  · simp [repLinePred, successLine, List.append_assoc, isPrefixOf_self_append]
  · simp [repLinePred, failedLine, List.append_assoc, isPrefixOf_self_append]

lemma countP_headerLines (type now : Str) (m : Nat) :
    (headerLines type m now).countP repLinePred = 0 := by
  have l1 : repLinePred "YouTube Download Report\n".data = false := by decide
  have l2 : repLinePred ("Generated: ".data ++ now ++ "\n".data) = false := by
    rw [List.append_assoc]
    exact repLinePred_false _ _ (by decide) (by decide) (by decide) (by decide)
  have l3 : repLinePred ("Download Type: ".data ++ type ++ "\n".data) = false := by
    rw [List.append_assoc]
    exact repLinePred_false _ _ (by decide) (by decide) (by decide) (by decide)
  have l4 : repLinePred ("Max Downloads: ".data ++ natStr m ++ "\n".data) = false := by
    rw [List.append_assoc]
    exact repLinePred_false _ _ (by decide) (by decide) (by decide) (by decide)
  have l5 : repLinePred (sepBar ++ "\n\n".data) = false :=
    repLinePred_false _ _ (by decide) (by decide) (by decide) (by decide)
  simp only [headerLines, List.countP_cons, List.countP_nil]
  rw [l1, l2, l3, l4, l5]
  simp

lemma countP_summaryLines (n s f : Nat) (ratef : Nat → Nat → Str) :
    (summaryLines n s f ratef).countP repLinePred = 0 := by
  have l1 : repLinePred ("\n".data ++ sepBar ++ "\n".data) = false := by
    show repLinePred ('\n' :: (sepBar ++ "\n".data)) = false
    exact repLinePred_cons_false _ _ (by decide) (by decide)
  have l2 : repLinePred "Download Summary:\n".data = false := by decide
  have l3 : repLinePred ("Total Processed: ".data ++ natStr n ++ "\n".data) = false := by
    rw [List.append_assoc]
    exact repLinePred_false _ _ (by decide) (by decide) (by decide) (by decide)
  have l4 : repLinePred ("Total Success: ".data ++ natStr s ++ "\n".data) = false := by
    rw [List.append_assoc]
    exact repLinePred_false _ _ (by decide) (by decide) (by decide) (by decide)
  have l5 : repLinePred ("Total Failures: ".data ++ natStr f ++ "\n".data) = false := by
    rw [List.append_assoc]
    exact repLinePred_false _ _ (by decide) (by decide) (by decide) (by decide)
  have l6 : repLinePred ("Success Rate: ".data ++ ratef s n ++ "%\n".data) = false := by
    rw [List.append_assoc]
    exact repLinePred_false _ _ (by decide) (by decide) (by decide) (by decide)
  by_cases hn : 0 < n
  · simp only [summaryLines, if_pos hn, List.countP_append, List.countP_cons, List.countP_nil]
    rw [l1, l2, l3, l4, l5, l6]
    simp
  · simp only [summaryLines, if_neg hn, List.countP_append, List.countP_cons, List.countP_nil]
    rw [l1, l2, l3, l4, l5]
    simp


lemma countP_report (type now : Str) (m n0 : Nat) (body : List Str) (s f : Nat)
    (ratef : Nat → Nat → Str) (hb : ∀ l ∈ body, repLinePred l = true) :
    ((headerLines type m now ++ body ++ summaryLines n0 s f ratef).countP repLinePred)
      = body.length := by
  rw [List.countP_append, List.countP_append, countP_headerLines, countP_summaryLines,
    List.countP_eq_length.2 hb]
  omega

/-! Helper lemmas about URL resolution. -/

/-- C2 core: the playlist extraction returns a duplicate-free list. -/
lemma extract_nodup (url : Str) (m : Nat) (es : Entries) :
    (extract_urls_from_playlist url m es).Nodup := by
  have hinit : ∀ b : Bool,
      (if b then [ytWatch (splitGet1Get0 "watch?v=".data "&".data url)]
       else ([] : List Str)).Nodup := by
    intro b; cases b <;> simp
  simp only [extract_urls_from_playlist]
  split
  · exact hinit _
  · refine List.Nodup.sublist (List.take_sublist _ _) ?_
    cases es with
    | none => exact hinit _
    | some l => exact foldl_extractStep_nodup m l _ (hinit _)

/-- A list whose isEmpty test is positive is the empty list. -/
lemma eq_nil_of_isEmpty {α : Type} (l : List α) (h : l.isEmpty = true) : l = [] := by
  cases l with
  | nil => rfl
  | cons a t => exact Bool.noConfusion h

/-- The fallback at source lines 349-352 makes the resolved list
non-empty. -/
lemma resolve_urls_ne_nil (url : Str) (m : Nat) (es : Entries) :
    resolve_urls url m es ≠ [] := by
  simp only [resolve_urls]
  cases h : (resolve_base url m es).isEmpty with
  | true => simp [h]
  | false =>
    rw [if_neg (show ¬(false = true) by simp)]
    intro hc
    rw [hc] at h
    exact absurd h (by simp)

/-- The base resolved list never repeats a URL. -/
lemma resolve_base_nodup (url : Str) (m : Nat) (es : Entries) :
    (resolve_base url m es).Nodup := by
  simp only [resolve_base]
  split
  · split
    · rename_i h2
      have h2b : ((extract_urls_from_playlist url m es).isEmpty
          && hasSub "watch?v=".data url) = true := h2
      rw [Bool.and_eq_true] at h2b
      rw [eq_nil_of_isEmpty _ h2b.1]
      simp
    · exact extract_nodup url m es
  · simp

/-- The resolved list never repeats a URL. -/
lemma resolve_urls_nodup (url : Str) (m : Nat) (es : Entries) :
    (resolve_urls url m es).Nodup := by
  simp only [resolve_urls]
  split
  · rename_i h
    rw [eq_nil_of_isEmpty _ h]
    simp
  · exact resolve_base_nodup url m es

/-- Structural description of get_youtube on a valid type: the
resolved list is processed by the download loop and the report is
assembled around its lines. -/
lemma get_youtube_valid (url type : Str) (m : Nat) (es : Entries)
    (eng : Str → EngineOutcome) (now : Str) (ratef : Nat → Nat → Str)
    (hty : type = "video".data ∨ type = "audio".data) :
    get_youtube url type m es eng now ratef =
      ⟨((resolve_urls url m es).foldl (dlStep eng) (0, 0, [])).1,
       ((resolve_urls url m es).foldl (dlStep eng) (0, 0, [])).2.1,
       some (headerLines type m now
         ++ ((resolve_urls url m es).foldl (dlStep eng) (0, 0, [])).2.2
         ++ summaryLines (resolve_urls url m es).length
              ((resolve_urls url m es).foldl (dlStep eng) (0, 0, [])).1
              ((resolve_urls url m es).foldl (dlStep eng) (0, 0, [])).2.1 ratef),
       resolve_urls url m es⟩ := by
  simp only [get_youtube]
  rw [if_pos hty, if_neg (resolve_urls_ne_nil url m es)]


/-- A member of a duplicate-free list occurs in it exactly once. -/
lemma count_eq_one_of_nodup_mem (l : List Str) (u : Str) (h : l.Nodup) (hu : u ∈ l) :
    l.count u = 1 := by
  induction l with
  | nil => cases hu
  | cons a t ih =>
    rcases List.mem_cons.1 hu with rfl | hu2
    · rw [List.count_cons_self]
      have hz : t.count u = 0 := by
        rw [List.count_eq_zero]
        exact (List.nodup_cons.1 h).1
      omega
    · have hne : u ≠ a := by
        rintro rfl
        exact (List.nodup_cons.1 h).1 hu2
      rw [List.count_cons_of_ne hne]
      exact ih (List.nodup_cons.1 h).2 hu2

/-! Claim theorems. -/

/-- C1: for every input URL and every non-negative cap, the list
returned by extract_urls_from_playlist has length at most the cap,
regardless of how many playlist entries the extraction library
reports. -/
theorem extract_respects_cap (url : Str) (m : Nat) (es : Entries) :
    (extract_urls_from_playlist url m es).length ≤ m := by
  simp only [extract_urls_from_playlist]
  split
  · rename_i hcond
    simp only [Bool.and_eq_true, beq_iff_eq] at hcond
    obtain ⟨⟨h1, h2⟩, rfl⟩ := hcond
    simp [h1, h2]
  · exact le_trans (Nat.le_of_eq (List.length_take _ _)) (Nat.min_le_left _ _)

/-- C2: the list returned by extract_urls_from_playlist is
duplicate-free, the seed video URL included: no URL string occurs at
two distinct positions. -/
theorem extract_no_duplicates (url : Str) (m : Nat) (es : Entries) :
    (extract_urls_from_playlist url m es).Nodup :=
  extract_nodup url m es

/-- C3 counterexample: a URL that contains a "list=" parameter (after
a question mark) and "v=", but not "&list=", is returned unchanged by
get_video_url: it is not normalized to the canonical single-video URL
and the result still contains the playlist parameter. -/
theorem get_video_url_list_condition_cex :
    hasSub "list=".data "https://www.youtube.com/watch?v=abc&index=2?list=PLx".data = true ∧
    hasSub "v=".data "https://www.youtube.com/watch?v=abc&index=2?list=PLx".data = true ∧
    get_video_url "https://www.youtube.com/watch?v=abc&index=2?list=PLx".data
      = "https://www.youtube.com/watch?v=abc&index=2?list=PLx".data ∧
    get_video_url "https://www.youtube.com/watch?v=abc&index=2?list=PLx".data
      ≠ "https://www.youtube.com/watch?v=abc".data ∧
    hasSub "list=".data
      (get_video_url "https://www.youtube.com/watch?v=abc&index=2?list=PLx".data) = true := by
  decide

/-- C3 as amended: for every URL containing "&list=" and "v=",
get_video_url returns the canonical single-video URL built from
url.split("v=")[1].split("&")[0], whose id part contains no ampersand,
so the result carries no "&list=" parameter; every URL not containing
"&list=" is returned unchanged. -/
theorem get_video_url_normalizes (u : Str) :
    (hasSub "&list=".data u = true → hasSub "v=".data u = true →
      get_video_url u = watchBase ++ splitGet1Get0 "v=".data "&".data u ∧
      '&' ∉ splitGet1Get0 "v=".data "&".data u ∧
      hasSub "&list=".data (get_video_url u) = false) ∧
    (hasSub "&list=".data u = false → get_video_url u = u) := by
  constructor
  · intro h1 h2
    have hres : get_video_url u = ytWatch (splitGet1Get0 "v=".data "&".data u) := by
      simp [get_video_url, h1, h2]
    refine ⟨hres, ?_, ?_⟩
    · exact not_mem_beforeFirst_single '&' _
    · rw [hres]
      exact no_amp_list_clean u
  · intro h1
    simp [get_video_url, h1]

/-- C3 witness: the amended statement applied to the default playlist
URL of the configuration. -/
theorem get_video_url_normalizes_witness :
    hasSub "&list=".data "https://www.youtube.com/watch?v=EptPiz-ZYvM&list=PLJZ&index=50".data
      = true ∧
    hasSub "v=".data "https://www.youtube.com/watch?v=EptPiz-ZYvM&list=PLJZ&index=50".data
      = true ∧
    (get_video_url "https://www.youtube.com/watch?v=EptPiz-ZYvM&list=PLJZ&index=50".data
        = watchBase ++ splitGet1Get0 "v=".data "&".data
            "https://www.youtube.com/watch?v=EptPiz-ZYvM&list=PLJZ&index=50".data ∧
      '&' ∉ splitGet1Get0 "v=".data "&".data
            "https://www.youtube.com/watch?v=EptPiz-ZYvM&list=PLJZ&index=50".data ∧
      hasSub "&list=".data
        (get_video_url "https://www.youtube.com/watch?v=EptPiz-ZYvM&list=PLJZ&index=50".data)
        = false) :=
  ⟨by decide, by decide,
   (get_video_url_normalizes
     "https://www.youtube.com/watch?v=EptPiz-ZYvM&list=PLJZ&index=50".data).1
     (by decide) (by decide)⟩

/-- C8: get_video_url is idempotent: applying it twice equals applying
it once, because the rebuilt URL contains no ampersand and hence never
matches the "&list=" condition again. -/
theorem get_video_url_idempotent (u : Str) :
    get_video_url (get_video_url u) = get_video_url u := by
  by_cases h : (hasSub "&list=".data u && hasSub "v=".data u) = true
  · have hres : get_video_url u = ytWatch (splitGet1Get0 "v=".data "&".data u) := by
      simp [get_video_url, h]
    rw [hres]
    simp [get_video_url, no_amp_list_clean u]
  · simp only [get_video_url]
    rw [if_neg h, if_neg h]

/-- C9: every element of the list returned by
extract_urls_from_playlist begins with the canonical watch-URL base,
whether it came from the seed URL or from a playlist entry id. -/
theorem extract_elements_canonical (url : Str) (m : Nat) (es : Entries) :
    ∀ x ∈ extract_urls_from_playlist url m es, watchBase <+: x := by
  have hinit : ∀ b : Bool, ∀ x ∈
      (if b then [ytWatch (splitGet1Get0 "watch?v=".data "&".data url)]
       else ([] : List Str)),
      watchBase <+: x := by
    intro b x hx
    cases b with
    | false => simp at hx
    | true =>
      simp only [if_true, List.mem_singleton] at hx
      subst hx
      exact List.prefix_append watchBase _
  simp only [extract_urls_from_playlist]
  split
  · exact hinit _
  · intro x hx
    have hx2 := List.take_subset _ _ hx
    cases es with
    | none => exact hinit _ x hx2
    | some l => exact foldl_extractStep_starts m l _ (hinit _) x hx2

/-- C9 witness: both the seed URL and an entry-built URL of a concrete
extraction start with the canonical base. -/
theorem extract_elements_canonical_witness :
    "https://www.youtube.com/watch?v=xyz".data
        ∈ extract_urls_from_playlist
            "https://www.youtube.com/watch?v=abc&list=PL1".data 3
            (some [some "xyz".data]) ∧
    watchBase <+: "https://www.youtube.com/watch?v=xyz".data :=
  ⟨by decide,
   extract_elements_canonical "https://www.youtube.com/watch?v=abc&list=PL1".data 3
     (some [some "xyz".data]) "https://www.youtube.com/watch?v=xyz".data (by decide)⟩

/-- C7: any type other than "video" or "audio" makes get_youtube
return (0, 0, None) with no download invoked and no report written. -/
theorem invalid_type_rejected (url type : Str) (m : Nat) (es : Entries)
    (eng : Str → EngineOutcome) (now : Str) (ratef : Nat → Nat → Str)
    (h : ¬(type = "video".data ∨ type = "audio".data)) :
    get_youtube url type m es eng now ratef = ⟨0, 0, none, []⟩ := by
  simp only [get_youtube]
  rw [if_neg h]

/-- C7 witness: the type "text" is rejected. -/
theorem invalid_type_rejected_witness :
    ¬("text".data = "video".data ∨ "text".data = "audio".data) ∧
    get_youtube "u".data "text".data 5 none (fun _ => EngineOutcome.noInfo) "t".data
        (fun _ _ => []) = ⟨0, 0, none, []⟩ :=
  ⟨by decide,
   invalid_type_rejected "u".data "text".data 5 none (fun _ => EngineOutcome.noInfo) "t".data
     (fun _ _ => []) (by decide)⟩

/-- C4: download_video turns an engine exception or missing metadata
into a (False, message) result rather than propagating, and the
download loop of get_youtube still processes every resolved URL
exactly once, whatever the per-URL outcomes are. -/
theorem download_failure_isolated (msg url type : Str) (m : Nat) (es : Entries)
    (eng : Str → EngineOutcome) (now : Str) (ratef : Nat → Nat → Str)
    (hty : type = "video".data ∨ type = "audio".data) :
    (download_video (EngineOutcome.exc msg)).1 = false ∧
    (download_video EngineOutcome.noInfo).1 = false ∧
    (get_youtube url type m es eng now ratef).downloads_invoked = resolve_urls url m es ∧
    ∀ u ∈ resolve_urls url m es,
      ((get_youtube url type m es eng now ratef).downloads_invoked).count u = 1 := by
  refine ⟨rfl, rfl, ?_, ?_⟩
  · rw [get_youtube_valid url type m es eng now ratef hty]
  · intro u hu
    rw [get_youtube_valid url type m es eng now ratef hty]
    exact count_eq_one_of_nodup_mem _ _ (resolve_urls_nodup url m es) hu

/-- C4 witness: with an engine that always raises, the sole resolved
URL is still processed exactly once. -/
theorem download_failure_isolated_witness :
    ("video".data = "video".data ∨ "video".data = "audio".data) ∧
    "https://youtu.be/x".data ∈ resolve_urls "https://youtu.be/x".data 5 none ∧
    ((get_youtube "https://youtu.be/x".data "video".data 5 none
        (fun _ => EngineOutcome.exc "boom".data) "t".data
        (fun _ _ => [])).downloads_invoked).count "https://youtu.be/x".data = 1 :=
  ⟨Or.inl rfl, by decide,
   (download_failure_isolated "boom".data "https://youtu.be/x".data "video".data 5 none
     (fun _ => EngineOutcome.exc "boom".data) "t".data (fun _ _ => [])
     (Or.inl rfl)).2.2.2 "https://youtu.be/x".data (by decide)⟩

/-- C5: on a valid type, get_youtube returns counters summing to the
resolved list length, the report holds exactly one SUCCESS/FAILED line
per processed URL, and the three summary totals render the list
length, the success count and the failure count. -/
theorem report_counts_match (url type now : Str) (m : Nat) (es : Entries)
    (eng : Str → EngineOutcome) (ratef : Nat → Nat → Str)
    (hty : type = "video".data ∨ type = "audio".data) :
    (get_youtube url type m es eng now ratef).success_count
        + (get_youtube url type m es eng now ratef).fail_count
      = (resolve_urls url m es).length ∧
    ∃ lines, (get_youtube url type m es eng now ratef).report = some lines ∧
      lines.countP repLinePred = (resolve_urls url m es).length ∧
      "Total Processed: ".data ++ natStr (resolve_urls url m es).length ++ "\n".data
        ∈ lines ∧
      "Total Success: ".data
          ++ natStr (get_youtube url type m es eng now ratef).success_count ++ "\n".data
        ∈ lines ∧
      "Total Failures: ".data
          ++ natStr (get_youtube url type m es eng now ratef).fail_count ++ "\n".data
        ∈ lines := by
  rw [get_youtube_valid url type m es eng now ratef hty]
  rcases foldl_dlStep_spec eng (resolve_urls url m es) 0 0 [] with ⟨h1, h2⟩
  have hb : ∀ l ∈ (resolve_urls url m es).map (dlLine eng), repLinePred l = true := by
    intro l hl
    rcases List.mem_map.1 hl with ⟨u, hu, rfl⟩
    exact repLinePred_dlLine eng u
  constructor
  · simpa using h1
  · refine ⟨_, rfl, ?_, ?_, ?_, ?_⟩
    · rw [h2, List.nil_append, countP_report type now m _ _ _ _ ratef hb, List.length_map]
    · simp [summaryLines, List.mem_append]
    · simp [summaryLines, List.mem_append]
    · simp [summaryLines, List.mem_append]

/-- C5 witness: the counters of a concrete run sum to the resolved
list length. -/
theorem report_counts_match_witness :
    ("video".data = "video".data ∨ "video".data = "audio".data) ∧
    (get_youtube "https://youtu.be/x".data "video".data 5 none
          (fun _ => EngineOutcome.ok "T".data true) "t".data
          (fun _ _ => [])).success_count
        + (get_youtube "https://youtu.be/x".data "video".data 5 none
          (fun _ => EngineOutcome.ok "T".data true) "t".data
          (fun _ _ => [])).fail_count
      = (resolve_urls "https://youtu.be/x".data 5 none).length :=
  ⟨Or.inl rfl,
   (report_counts_match "https://youtu.be/x".data "video".data "t".data 5 none
     (fun _ => EngineOutcome.ok "T".data true) (fun _ _ => []) (Or.inl rfl)).1⟩

/-- C6: the download loop walks the resolved URLs in list order, the
per-URL report lines appear in that same order, and the report is
assembled only around the lines of the complete loop. -/
theorem downloads_in_order (url type now : Str) (m : Nat) (es : Entries)
    (eng : Str → EngineOutcome) (ratef : Nat → Nat → Str)
    (hty : type = "video".data ∨ type = "audio".data) :
    (get_youtube url type m es eng now ratef).downloads_invoked = resolve_urls url m es ∧
    (get_youtube url type m es eng now ratef).report
      = some (headerLines type m now
          ++ (resolve_urls url m es).map (dlLine eng)
          ++ summaryLines (resolve_urls url m es).length
              (get_youtube url type m es eng now ratef).success_count
              (get_youtube url type m es eng now ratef).fail_count ratef) := by
  rw [get_youtube_valid url type m es eng now ratef hty]
  rcases foldl_dlStep_spec eng (resolve_urls url m es) 0 0 [] with ⟨h1, h2⟩
  refine ⟨rfl, ?_⟩
  rw [h2]
  simp

/-- C6 witness: a concrete run invokes the download capability on
exactly the resolved list. -/
theorem downloads_in_order_witness :
    ("audio".data = "video".data ∨ "audio".data = "audio".data) ∧
    (get_youtube "https://youtu.be/x".data "audio".data 5 none
        (fun _ => EngineOutcome.noInfo) "t".data
        (fun _ _ => [])).downloads_invoked
      = resolve_urls "https://youtu.be/x".data 5 none :=
  ⟨Or.inr rfl,
   (downloads_in_order "https://youtu.be/x".data "audio".data "t".data 5 none
     (fun _ => EngineOutcome.noInfo) (fun _ _ => []) (Or.inr rfl)).1⟩

/-- C10: the resolved URL list is never empty when the download loop
is reached, so the second "No valid URLs found" emptiness check can
never fire: on a valid type the report is always written. -/
theorem resolved_list_nonempty (url : Str) (m : Nat) (es : Entries)
    (eng : Str → EngineOutcome) (now : Str) (ratef : Nat → Nat → Str) :
    resolve_urls url m es ≠ [] ∧
    ∀ type : Str, (type = "video".data ∨ type = "audio".data) →
      (get_youtube url type m es eng now ratef).report ≠ none := by
  refine ⟨resolve_urls_ne_nil url m es, ?_⟩
  intro type hty
  rw [get_youtube_valid url type m es eng now ratef hty]
  simp

/-- C10 witness: a concrete run resolves a non-empty list and writes
a report. -/
theorem resolved_list_nonempty_witness :
    resolve_urls "u".data 5 none ≠ [] ∧
    ("video".data = "video".data ∨ "video".data = "audio".data) ∧
    (get_youtube "u".data "video".data 5 none (fun _ => EngineOutcome.noInfo) "t".data
        (fun _ _ => [])).report ≠ none :=
  ⟨(resolved_list_nonempty "u".data 5 none (fun _ => EngineOutcome.noInfo) "t".data
      (fun _ _ => [])).1,
   Or.inl rfl,
   (resolved_list_nonempty "u".data 5 none (fun _ => EngineOutcome.noInfo) "t".data
      (fun _ _ => [])).2 "video".data (Or.inl rfl)⟩

end YT
